import Mathlib

/-!
Verification development for the hyperspot settings service
(`modules/settings_service`).  The Rust domain layer is shallowly embedded:
the SeaORM repositories become pure functions on association lists, the
in-memory lock map becomes an association list, time is an integer number of
seconds, and each service operation is a pure function from a `ServiceState`
to a result, a new state and the list of publish calls it makes.
-/

deriving instance DecidableEq for Except

namespace SettingsService

/-- JSON values as persisted by the settings store (models `serde_json::Value`;
numbers are restricted to integers, which covers every value this development
manipulates).  Arrays and objects are cons-encoded rather than wrapped in
`List` so that decidable equality can be derived. -/
inductive Json where
  | null
  | bool (b : Bool)
  | num (n : Int)
  | str (s : String)
  | arrNil
  | arrCons (head : Json) (tail : Json)
  | objNil
  | objCons (key : String) (value : Json) (rest : Json)
  deriving DecidableEq, Repr

/-- Look a key up in a cons-encoded JSON object (models `serde_json::Map::get`). -/
def Json.lookup (k : String) : Json → Option Json
  | .objCons key value rest => if key == k then some value else Json.lookup k rest
  | _ => none

/-- Tenant identifiers (`uuid::Uuid` in the source) are modelled as naturals. -/
abbrev Uuid := Nat

/-- Instants (`chrono::DateTime<Utc>`) are modelled as integer seconds. -/
abbrev Time := Int

/-- `chrono::Duration::days(d)` as a number of seconds. -/
def daysToTime (d : Int) : Time := d * 86400

/-- `contract::model::Setting`. -/
structure Setting where
  type : String
  tenant_id : Uuid
  domain_object_id : String
  data : Json
  created_at : Time
  updated_at : Time
  deleted_at : Option Time
  deriving DecidableEq, Repr

/-- `contract::model::DomainType`. -/
inductive DomainType where
  | tenant | storage | user | agent | application | brand | resource | global
  deriving DecidableEq, Repr

/-- `contract::model::EventTarget`. -/
inductive EventTarget where
  | self_ | subroot | none_
  deriving DecidableEq, Repr

/-- `contract::model::EventConfig`. -/
structure EventConfig where
  audit : EventTarget
  notification : EventTarget
  deriving DecidableEq, Repr

/-- `contract::model::SettingOptions`. -/
structure SettingOptions where
  retention_period : Nat
  is_value_inheritable : Bool
  is_value_overwritable : Bool
  is_barrier_inheritance : Bool
  enable_generic : Bool
  is_mfa_required : Bool
  deriving DecidableEq, Repr

/-- `contract::model::GtsTraits`. -/
structure GtsTraits where
  domain_type : DomainType
  events : EventConfig
  options : SettingOptions
  operation : Option String
  deriving DecidableEq, Repr

/-- `contract::model::GtsType`. -/
structure GtsType where
  type : String
  traits : GtsTraits
  schema : Option Json
  created_at : Time
  updated_at : Time
  deriving DecidableEq, Repr

/-- `contract::model::AuthContext`. -/
structure AuthContext where
  is_root_admin : Bool
  user_id : Option String
  client_id : Option String
  deriving DecidableEq, Repr

/-- `AuthContext::non_admin()`. -/
def AuthContext.non_admin : AuthContext := ⟨false, none, none⟩

/-- `AuthContext::root_admin(user_id, client_id)`. -/
def AuthContext.root_admin (u c : Option String) : AuthContext := ⟨true, u, c⟩

/-- `contract::error::SettingsError`. -/
inductive SettingsError where
  | notFound (resource : String) (id : String)
  | conflict (reason : String)
  | validation (message : String)
  | locked (setting_type : String)
  | typeNotRegistered (gts_type : String)
  | invalidGtsFormat (gts : String) (details : String)
  | schemaValidation (errors : List String)
  | internal
  deriving DecidableEq, Repr

/-- True exactly on `Conflict` errors. -/
def SettingsError.isConflict : SettingsError → Bool
  | .conflict _ => true
  | _ => false

/-- True exactly on `Err(Validation ..)` results. -/
def isValidationError {α : Type} : Except SettingsError α → Bool
  | .error (.validation _) => true
  | _ => false

/-- `Result::is_err`. -/
def exceptIsErr {ε α : Type} : Except ε α → Bool
  | .error _ => true
  | .ok _ => false

/-- `domain::events::SettingEvent` (the event timestamp, which no claim
mentions, is not modelled). -/
inductive SettingEvent where
  | settingUpserted (setting_type : String) (tenant_id : Uuid)
      (domain_object_id : String) (data : Json) (is_new : Bool) (user_id : Option Uuid)
  | settingDeleted (setting_type : String) (tenant_id : Uuid)
      (domain_object_id : String) (user_id : Option Uuid)
  | settingLocked (setting_type : String) (tenant_id : Uuid)
      (domain_object_id : String) (read_only : Bool) (user_id : Option Uuid)
  deriving DecidableEq, Repr

/-- The two publish channels of `domain::events::EventPublisher`. -/
inductive Channel where
  | audit | notification
  deriving DecidableEq, Repr

/-- One call to `publish_audit` / `publish_notification`. -/
structure PublishCall where
  channel : Channel
  event : SettingEvent
  target : EventTarget
  tenant_id : Uuid
  deriving DecidableEq, Repr

/-! ## Settings store (SeaOrmSettingsRepository over an in-Lean table) -/

/-- Rows of the `settings` table. -/
abbrev SettingsTable := List Setting

/-- Rows of the `cti_registry` table. -/
abbrev TypeTable := List GtsType

/-- The three-column composite-key filter shared by every settings query. -/
def settingKeyMatches (ty : String) (tid : Uuid) (obj : String) (s : Setting) : Bool :=
  s.type == ty && s.tenant_id == tid && s.domain_object_id == obj

/-- `SeaOrmSettingsRepository::find_by_key`: exact key, excluding soft-deleted rows. -/
def findByKey (tbl : SettingsTable) (ty : String) (tid : Uuid) (obj : String) :
    Option Setting :=
  (tbl.filter (fun s => settingKeyMatches ty tid obj s && s.deleted_at.isNone)).head?

/-- `SeaOrmSettingsRepository::find_by_type`: all non-deleted rows of a type,
optionally filtered by tenant. -/
def findByType (tbl : SettingsTable) (ty : String) (tid : Option Uuid) : List Setting :=
  tbl.filter (fun s =>
    s.type == ty && s.deleted_at.isNone &&
      (match tid with
       | some t => s.tenant_id == t
       | none => true))

/-- `SeaOrmSettingsRepository::list_all(limit, offset)`.  Note the
`DeletedAt.is_null()` filter in the source: soft-deleted rows are NOT returned. -/
def listAll (tbl : SettingsTable) (limit offset : Nat) : List Setting :=
  (((tbl.filter (fun s => s.deleted_at.isNone)).drop offset).take limit)

/-- The tests' `MockSettingsRepo::list_all`, which ignores limit and offset and
returns every row, soft-deleted rows included. -/
def listAllMock (tbl : SettingsTable) : List Setting := tbl

/-- `SeaOrmSettingsRepository::soft_delete`: stamp `deleted_at` on every row
matching the key. -/
def softDelete (tbl : SettingsTable) (ty : String) (tid : Uuid) (obj : String)
    (now : Time) : SettingsTable :=
  tbl.map (fun s =>
    if settingKeyMatches ty tid obj s then { s with deleted_at := some now } else s)

/-- `SeaOrmSettingsRepository::hard_delete`: physically remove every row
matching the key. -/
def hardDelete (tbl : SettingsTable) (ty : String) (tid : Uuid) (obj : String) :
    SettingsTable :=
  tbl.filter (fun s => !(settingKeyMatches ty tid obj s))

/-- `SeaOrmSettingsRepository::upsert`: look for a row at the exact key (note:
no `deleted_at` filter on this lookup); if present, update it in place with the
incoming fields plus a refreshed `updated_at`, otherwise insert the incoming
row.  Returns the persisted row. -/
def upsertRow (tbl : SettingsTable) (s : Setting) (now : Time) : Setting × SettingsTable :=
  match tbl.find? (settingKeyMatches s.type s.tenant_id s.domain_object_id) with
  | some _ =>
    let updated := { s with updated_at := now }
    (updated,
     tbl.map (fun r =>
       if settingKeyMatches s.type s.tenant_id s.domain_object_id r then updated else r))
  | none => (s, tbl ++ [s])

/-! ## Type registry store (SeaOrmGtsTypeRepository) -/

/-- `SeaOrmGtsTypeRepository::find_by_type` (primary-key lookup). -/
def typesFind (types : TypeTable) (id : String) : Option GtsType :=
  types.find? (fun g => g.type == id)

/-- `SeaOrmGtsTypeRepository::exists` (`count > 0` over the primary-key match). -/
def typesExists (types : TypeTable) (id : String) : Bool :=
  !(types.filter (fun g => g.type == id)).isEmpty

/-! ## Lock table (the service's in-memory `locks` map) -/

/-- `(setting_type, tenant_id, domain_object_id)`. -/
abbrev LockKey := String × Uuid × String

/-- The in-memory lock map, keyed by the composite key. -/
abbrev LockTable := List (LockKey × Bool)

/-- `HashMap::get`. -/
def lockGet (locks : LockTable) (k : LockKey) : Option Bool :=
  (locks.find? (fun p => p.1 == k)).map (·.2)

/-- `HashMap::insert` (overwrites any previous entry for the key). -/
def lockInsert (locks : LockTable) (k : LockKey) (v : Bool) : LockTable :=
  (k, v) :: locks.filter (fun p => !(p.1 == k))

/-- `HashMap::remove`. -/
def lockRemove (locks : LockTable) (k : LockKey) : LockTable :=
  locks.filter (fun p => !(p.1 == k))

/-! ## Schema validation -/

/-- Does a JSON value satisfy a JSON-Schema `"type"` name? -/
def jsonTypeMatches (tyName : String) (v : Json) : Bool :=
  match v with
  | .objNil | .objCons .. => tyName == "object"
  | .str _ => tyName == "string"
  | .num _ => tyName == "number" || tyName == "integer"
  | .bool _ => tyName == "boolean"
  | .arrNil | .arrCons .. => tyName == "array"
  | .null => tyName == "null"

/-- Are all keys of a cons-encoded `"required"` array present in `data`? -/
def requiredSatisfied (data : Json) : Json → Bool
  | .arrCons (.str k) rest => (data.lookup k).isSome && requiredSatisfied data rest
  | .arrCons _ rest => requiredSatisfied data rest
  | _ => true

/-- Modelled from the spec: the Schema Validator ("compiles a JSON-Schema-like
document and validates a value against it; pure function, no state") lives in
the external `jsonschema` crate, whose code is not part of this repository.
It is modelled here for the fragment the spec exercises: a top-level `"type"`
keyword and a `"required"` list of property names. -/
def validate_against_schema (data schema : Json) : Except SettingsError Unit :=
  let typeOk :=
    match schema.lookup "type" with
    | some (.str t) => jsonTypeMatches t data
    | _ => true
  let requiredOk :=
    match schema.lookup "required" with
    | some reqs => requiredSatisfied data reqs
    | none => true
  if typeOk && requiredOk then .ok ()
  else .error (.schemaValidation ["schema validation failed"])

/-- The schema check at the top of `Service::upsert_setting_with_auth`:
validate only when the type carries a schema. -/
def schema_gate (g : GtsType) (data : Json) : Except SettingsError Unit :=
  match g.schema with
  | some sch => validate_against_schema data sch
  | none => .ok ()

/-! ## The domain service (`domain::service::Service`) -/

/-- The state a `Service` instance closes over: the settings table, the type
registry table, and the in-memory lock map. -/
structure ServiceState where
  settings : SettingsTable
  types : TypeTable
  locks : LockTable
  deriving DecidableEq, Repr

/-- Result of a mutating service call: the returned value or error, the state
after the call, and the publish calls made on the event publisher. -/
structure OpResult (α : Type) where
  res : Except SettingsError α
  state : ServiceState
  pubs : List PublishCall

/-- `u64::MAX`, the limit `enforce_retention` passes to `list_all`. -/
def UMAX : Nat := 2 ^ 64 - 1

/-- `Service::get_gts_type`. -/
def get_gts_type (st : ServiceState) (ty : String) : Except SettingsError GtsType :=
  match typesFind st.types ty with
  | some g => .ok g
  | none => .error (.typeNotRegistered ty)

/-- `Service::get_setting`: validate the type exists, then require a direct
non-deleted row at the exact key. -/
def get_setting (st : ServiceState) (ty : String) (tid : Uuid) (obj : String) :
    Except SettingsError Setting :=
  if typesExists st.types ty then
    match findByKey st.settings ty tid obj with
    | some s => .ok s
    | none => .error (.notFound "setting" (ty ++ "/" ++ toString tid ++ "/" ++ obj))
  else .error (.typeNotRegistered ty)

/-- `Service::get_settings_by_type`. -/
def get_settings_by_type (st : ServiceState) (ty : String) (tid : Option Uuid) :
    Except SettingsError (List Setting) :=
  if typesExists st.types ty then .ok (findByType st.settings ty tid)
  else .error (.typeNotRegistered ty)

/-- The event-publication block that ends `upsert_setting`, `delete_setting`
and `lock_setting`: re-fetch the type and, when found, publish the event on
the audit channel and on the notification channel with the type's targets
(publish failures are swallowed, so the calls themselves are the observable). -/
def publishFor (types : TypeTable) (ty : String) (ev : SettingEvent) (tid : Uuid) :
    List PublishCall :=
  match typesFind types ty with
  | some g =>
    [⟨.audit, ev, g.traits.events.audit, tid⟩,
     ⟨.notification, ev, g.traits.events.notification, tid⟩]
  | none => []

/-- `Service::upsert_setting_with_auth`.  The list-based store never fails, so
every repository call is modelled as returning `Ok`; in particular the
`is_new` flag, computed in the source as `find_by_key(..).is_err()`, is the
`isErr` of an always-`ok` value. -/
def upsert_setting_with_auth (st : ServiceState) (ty : String) (tid : Uuid)
    (obj : String) (data : Json) (auth : AuthContext) (now : Time) : OpResult Setting :=
  match get_gts_type st ty with
  | .error e => ⟨.error e, st, []⟩
  | .ok gts_type =>
    match schema_gate gts_type data with
    | .error e => ⟨.error e, st, []⟩
    | .ok _ =>
      if !auth.is_root_admin && lockGet st.locks (ty, tid, obj) == some true then
        ⟨.error (.conflict ("Setting is locked for compliance: " ++ ty ++ "/" ++
          toString tid ++ "/" ++ obj)), st, []⟩
      else if !auth.is_root_admin && !gts_type.traits.options.is_value_overwritable &&
          (findByType st.settings ty none).any
            (fun s => !(s.tenant_id == tid) && s.domain_object_id == obj) then
        ⟨.error (.conflict ("Setting is not overwritable (is_value_overwritable=false): " ++
          ty ++ "/" ++ toString tid ++ "/" ++ obj)), st, []⟩
      else
        let setting : Setting := ⟨ty, tid, obj, data, now, now, none⟩
        let find_res : Except SettingsError (Option Setting) :=
          .ok (findByKey st.settings ty tid obj)
        let is_new := exceptIsErr find_res
        let result := (upsertRow st.settings setting now).1
        let settings' := (upsertRow st.settings setting now).2
        let ev := SettingEvent.settingUpserted result.type result.tenant_id
          result.domain_object_id result.data is_new none
        ⟨.ok result, { st with settings := settings' }, publishFor st.types ty ev tid⟩

/-- `Service::upsert_setting` (non-admin wrapper). -/
def upsert_setting (st : ServiceState) (ty : String) (tid : Uuid) (obj : String)
    (data : Json) (now : Time) : OpResult Setting :=
  upsert_setting_with_auth st ty tid obj data AuthContext.non_admin now

/-- `Service::delete_setting` (soft delete; the lock check here is
unconditional — this operation takes no auth context). -/
def delete_setting (st : ServiceState) (ty : String) (tid : Uuid) (obj : String)
    (now : Time) : OpResult Unit :=
  if !(typesExists st.types ty) then ⟨.error (.typeNotRegistered ty), st, []⟩
  else if lockGet st.locks (ty, tid, obj) == some true then
    ⟨.error (.conflict ("Setting is locked for compliance: " ++ ty ++ "/" ++
      toString tid ++ "/" ++ obj)), st, []⟩
  else
    let settings' := softDelete st.settings ty tid obj now
    let ev := SettingEvent.settingDeleted ty tid obj none
    ⟨.ok (), { st with settings := settings' }, publishFor st.types ty ev tid⟩

/-- `Service::lock_setting`.  The source runs
`find_by_key(..).map_err(|_| NotFound)?` for its "verify setting exists" step:
only a store-level failure maps to `NotFound`, while `Ok(None)` — the row
simply not existing — flows on, so with a working store the lock entry is
written whether or not the setting exists. -/
def lock_setting (st : ServiceState) (ty : String) (tid : Uuid) (obj : String)
    (read_only : Bool) : OpResult Unit :=
  if !(typesExists st.types ty) then ⟨.error (.typeNotRegistered ty), st, []⟩
  else
    let find_res : Except SettingsError (Option Setting) :=
      .ok (findByKey st.settings ty tid obj)
    match find_res with
    | .error _ =>
      ⟨.error (.notFound "setting" (ty ++ "/" ++ toString tid ++ "/" ++ obj)), st, []⟩
    | .ok _ =>
      let locks' := lockInsert st.locks (ty, tid, obj) read_only
      let ev := SettingEvent.settingLocked ty tid obj read_only none
      ⟨.ok (), { st with locks := locks' }, publishFor st.types ty ev tid⟩

/-- `Service::is_locked`. -/
def is_locked (st : ServiceState) (ty : String) (tid : Uuid) (obj : String) : Bool :=
  (lockGet st.locks (ty, tid, obj)).getD false

/-- `Service::unlock_setting`. -/
def unlock_setting (st : ServiceState) (ty : String) (tid : Uuid) (obj : String) :
    ServiceState :=
  { st with locks := lockRemove st.locks (ty, tid, obj) }

/-- The per-row loop of `Service::enforce_retention`: skip rows that are not
soft-deleted, skip rows whose type is not registered, and hard-delete (and
count) a row when `now > deleted_at + retention_days`. -/
def retention_sweep (types : TypeTable) (now : Time) :
    List Setting → SettingsTable → Nat × SettingsTable
  | [], tbl => (0, tbl)
  | s :: rest, tbl =>
    match s.deleted_at with
    | none => retention_sweep types now rest tbl
    | some deletedAt =>
      match typesFind types s.type with
      | none => retention_sweep types now rest tbl
      | some g =>
        if now > deletedAt + daysToTime (g.traits.options.retention_period : Int) then
          let res := retention_sweep types now rest
            (hardDelete tbl s.type s.tenant_id s.domain_object_id)
          (res.1 + 1, res.2)
        else retention_sweep types now rest tbl

/-- `Service::enforce_retention` composed with `SeaOrmSettingsRepository::list_all`
(the production pair cited by the spec). -/
def enforce_retention (st : ServiceState) (now : Time) :
    Except SettingsError Nat × ServiceState :=
  let allSettings := listAll st.settings UMAX 0
  let res := retention_sweep st.types now allSettings st.settings
  (.ok res.1, { st with settings := res.2 })

/-- `Service::enforce_retention` composed with the tests'
`MockSettingsRepo::list_all` (which returns soft-deleted rows too). -/
def enforce_retention_mock (st : ServiceState) (now : Time) :
    Except SettingsError Nat × ServiceState :=
  let res := retention_sweep st.types now (listAllMock st.settings) st.settings
  (.ok res.1, { st with settings := res.2 })

/-! ## Inheritance resolution (the `resolve_inherited_setting` helper of
`tests/service_tests.rs`, composed over the service's read operations) -/

/-- The ancestor walk of `resolve_inherited_setting`: at the first ancestor
with a direct setting, return it when the type is inheritable and not a
barrier; otherwise keep walking. -/
def resolve_walk (st : ServiceState) (ty : String) (obj : String) :
    List Uuid → Option Setting
  | [] => none
  | a :: rest =>
    match get_setting st ty a obj with
    | .ok s =>
      match get_gts_type st ty with
      | .ok g =>
        if g.traits.options.is_value_inheritable &&
            !g.traits.options.is_barrier_inheritance then some s
        else resolve_walk st ty obj rest
      | .error _ => resolve_walk st ty obj rest
    | .error _ => resolve_walk st ty obj rest

/-- `resolve_inherited_setting(service, hierarchy, type, tenant, object)`:
try the tenant's own setting, then walk the ancestor path (child-to-root, as
produced by `get_ancestors`). -/
def resolve_inherited_setting (st : ServiceState) (ancestors : List Uuid)
    (ty : String) (tid : Uuid) (obj : String) : Option Setting :=
  match get_setting st ty tid obj with
  | .ok s => some s
  | .error _ => resolve_walk st ty obj ancestors

/-! ## Object-id validation (`domain::validation::validate_domain_object_id`) -/

/-- ASCII hexadecimal digit (the characters `Uuid::parse_str` accepts inside a
uuid). -/
def isHexDigit (c : Char) : Bool :=
  c.isDigit || (('a' : Char) ≤ c && c ≤ ('f' : Char)) ||
    (('A' : Char) ≤ c && c ≤ ('F' : Char))

/-- `Uuid::parse_str(s).is_ok()`, modelled for the hyphenated
(8-4-4-4-12, hyphens at positions 8, 13, 18, 23) and simple (32 hex digits)
encodings the crate accepts. -/
def uuid_parse_ok (s : String) : Bool :=
  let cs := s.data
  (cs.length == 36 &&
    cs.enum.all (fun p =>
      if p.1 == 8 || p.1 == 13 || p.1 == 18 || p.1 == 23 then p.2 == '-'
      else isHexDigit p.2))
  || (cs.length == 32 && cs.all isHexDigit)

/-- The character set the AppCode branch allows: alphanumeric, `_`, `.`, `-`.
`char::is_alphanumeric` is modelled on its ASCII fragment (`Char.isAlphanum`),
which covers every identifier this service handles. -/
def isAppcodeChar (c : Char) : Bool :=
  c.isAlphanum || c == '_' || c == '.' || c == '-'

/-- `validation::validate_domain_object_id`: empty check, the `"generic"`
literal, the uuid shape, the `gts.`-prefixed nested-type shape, then the
AppCode checks (first char alphanumeric, all chars from the allowed set, at
least one alphanumeric). -/
def validate_domain_object_id (s : String) : Except SettingsError Unit :=
  match s.data with
  | [] => .error (.validation "domain_object_id cannot be empty")
  | first :: _ =>
    if s == "generic" then .ok ()
    else if uuid_parse_ok s then .ok ()
    else if "gts.".data.isPrefixOf s.data && s.data.contains '~' then .ok ()
    else if !first.isAlphanum then
      .error (.validation "domain_object_id must start with alphanumeric character")
    else if !(s.data.all isAppcodeChar) then
      .error (.validation "domain_object_id contains invalid characters")
    else if !(s.data.any (fun c => c.isAlphanum)) then
      .error (.validation "domain_object_id must contain at least one alphanumeric character")
    else .ok ()

/-- The AppCode shape as the spec words it: starts with an alphanumeric
character, contains only alphanumerics/`_`/`.`/`-`, and contains at least one
alphanumeric character. -/
def is_appcode_shape (s : String) : Bool :=
  match s.data with
  | [] => false
  | first :: _ =>
    first.isAlphanum && s.data.all isAppcodeChar && s.data.any (fun c => c.isAlphanum)

/-- The four accepted object-id shapes as the spec words them. -/
def object_id_accepted (s : String) : Bool :=
  s == "generic" || uuid_parse_ok s ||
    ("gts.".data.isPrefixOf s.data && s.data.contains '~') || is_appcode_shape s

/-! ## Basic lemmas about the embedded stores -/

theorem typesExists_eq (types : TypeTable) (id : String) :
    typesExists types id = (typesFind types id).isSome := by
  induction types with
  | nil => rfl
  | cons g rest ih =>
    by_cases h : (g.type == id) = true
    · simp [typesExists, typesFind, List.filter_cons, h]
    · simp only [Bool.not_eq_true] at h
      have hfind : List.find? (fun t => t.type == id) (g :: rest)
          = List.find? (fun t => t.type == id) rest :=
        List.find?_cons_of_neg _ (by simp [h])
      simp only [typesExists, typesFind, List.filter_cons, h, Bool.false_eq_true,
        if_false, hfind] at ih ⊢
      exact ih

theorem findByKey_fields {tbl : SettingsTable} {ty : String} {tid : Uuid}
    {obj : String} {s : Setting} (h : findByKey tbl ty tid obj = some s) :
    s.type = ty ∧ s.tenant_id = tid ∧ s.domain_object_id = obj ∧ s.deleted_at = none := by
  unfold findByKey at h
  rw [List.head?_eq_some_iff] at h
  obtain ⟨ys, hys⟩ := h
  have hmem : s ∈ tbl.filter
      (fun x => settingKeyMatches ty tid obj x && x.deleted_at.isNone) := by
    rw [hys]; exact List.mem_cons_self _ _
  have hpred := (List.mem_filter.mp hmem).2
  simp only [settingKeyMatches, Bool.and_eq_true, beq_iff_eq,
    Option.isNone_iff_eq_none] at hpred
  exact ⟨hpred.1.1.1, hpred.1.1.2, hpred.1.2, hpred.2⟩

theorem lockGet_lockInsert (m : LockTable) (k : LockKey) (v : Bool) :
    lockGet (lockInsert m k v) k = some v := by
  simp [lockGet, lockInsert]

theorem upsertRow_fst {tbl : SettingsTable} {s : Setting} {now : Time}
    (h : s.updated_at = now) : (upsertRow tbl s now).1 = s := by
  unfold upsertRow
  cases hf : tbl.find? (settingKeyMatches s.type s.tenant_id s.domain_object_id) with
  | none => rfl
  | some r => cases s; simp_all

/-- After the update branch of `upsert`, the first surviving row at the key is
the updated row. -/
theorem head_filter_map_upd (ty : String) (tid : Uuid) (obj : String)
    (upd : Setting) (hmatch : settingKeyMatches ty tid obj upd = true)
    (hdel : upd.deleted_at.isNone = true) :
    ∀ tbl : SettingsTable,
      (tbl.find? (settingKeyMatches ty tid obj)).isSome = true →
      ((tbl.map (fun r => if settingKeyMatches ty tid obj r then upd else r)).filter
        (fun x => settingKeyMatches ty tid obj x && x.deleted_at.isNone)).head?
        = some upd := by
  intro tbl
  induction tbl with
  | nil => intro h; simp [List.find?] at h
  | cons r rest ih =>
    intro h
    by_cases hk : settingKeyMatches ty tid obj r = true
    · simp [List.filter_cons, hk, hmatch, hdel]
    · simp only [Bool.not_eq_true] at hk
      have h' : (rest.find? (settingKeyMatches ty tid obj)).isSome = true := by
        rw [List.find?_cons_of_neg _ (by simp [hk])] at h
        exact h
      simpa [List.filter_cons, hk] using ih h'

/-- `find_by_key` right after `upsert` returns the persisted row (the row the
service writes is never soft-deleted). -/
theorem findByKey_upsertRow (tbl : SettingsTable) (s : Setting) (now : Time)
    (hdel : s.deleted_at = none) :
    findByKey (upsertRow tbl s now).2 s.type s.tenant_id s.domain_object_id
      = some (upsertRow tbl s now).1 := by
  unfold upsertRow
  cases hf : tbl.find? (settingKeyMatches s.type s.tenant_id s.domain_object_id) with
  | some r =>
    simp only [findByKey]
    exact head_filter_map_upd _ _ _ _ (by simp [settingKeyMatches])
      (by simp [hdel]) tbl (by simp [hf])
  | none =>
    have h1 : tbl.filter
        (fun x => settingKeyMatches s.type s.tenant_id s.domain_object_id x &&
          x.deleted_at.isNone) = [] := by
      rw [List.filter_eq_nil_iff]
      intro a ha
      have := List.find?_eq_none.mp hf a ha
      simp [this]
    simp only [findByKey, List.filter_append]
    rw [h1]
    simp [List.filter_cons, settingKeyMatches, hdel]

theorem get_setting_found {st : ServiceState} {ty : String} {tid : Uuid}
    {obj : String} {s : Setting} (hex : typesExists st.types ty = true)
    (hf : findByKey st.settings ty tid obj = some s) :
    get_setting st ty tid obj = .ok s := by
  simp [get_setting, hex, hf]

theorem get_setting_isErr_of_none {st : ServiceState} {ty : String} {tid : Uuid}
    {obj : String} (hf : findByKey st.settings ty tid obj = none) :
    ∃ e, get_setting st ty tid obj = .error e := by
  by_cases hex : typesExists st.types ty = true
  · exact ⟨SettingsError.notFound "setting" (ty ++ "/" ++ toString tid ++ "/" ++ obj),
      by simp [get_setting, hex, hf]⟩
  · exact ⟨SettingsError.typeNotRegistered ty, by simp [get_setting, hex]⟩

/-! ## Claim theorems -/

/-- Characterization of an accepted upsert: when the type is registered, the
schema gate passes, and neither the lock check nor the overwrite check fires,
`upsert_setting_with_auth` persists the freshly-built row (whose `is_new`
event flag is the `is_err` of the successful `find_by_key` call, hence
`false`). -/
theorem upsert_success (st : ServiceState) (ty : String) (tid : Uuid) (obj : String)
    (data : Json) (auth : AuthContext) (now : Time) (g : GtsType)
    (hreg : typesFind st.types ty = some g)
    (hs : schema_gate g data = .ok ())
    (hlock : auth.is_root_admin = true ∨ ¬lockGet st.locks (ty, tid, obj) = some true)
    (hovr : auth.is_root_admin = true ∨ g.traits.options.is_value_overwritable = true ∨
      (findByType st.settings ty none).any
        (fun s => !(s.tenant_id == tid) && s.domain_object_id == obj) = false) :
    upsert_setting_with_auth st ty tid obj data auth now
      = ⟨.ok ⟨ty, tid, obj, data, now, now, none⟩,
         { st with settings :=
            (upsertRow st.settings ⟨ty, tid, obj, data, now, now, none⟩ now).2 },
         publishFor st.types ty
           (.settingUpserted ty tid obj data false none) tid⟩ := by
  have hg : get_gts_type st ty = .ok g := by simp [get_gts_type, hreg]
  have hc1 : (!auth.is_root_admin &&
      (lockGet st.locks (ty, tid, obj) == some true)) = false := by
    rcases hlock with h | h
    · simp [h]
    · cases hadm : auth.is_root_admin
      · simp only [Bool.not_false, Bool.true_and]
        rw [beq_eq_false_iff_ne]
        exact h
      · simp
  have hc2 : (!auth.is_root_admin && !g.traits.options.is_value_overwritable &&
      (findByType st.settings ty none).any
        (fun s => !(s.tenant_id == tid) && s.domain_object_id == obj)) = false := by
    rcases hovr with h | h | h <;> simp [h]
  have hrow : (upsertRow st.settings ⟨ty, tid, obj, data, now, now, none⟩ now).1
      = ⟨ty, tid, obj, data, now, now, none⟩ := upsertRow_fst rfl
  simp only [upsert_setting_with_auth, hg, hs, hc1, hc2, Bool.false_eq_true,
    if_false, exceptIsErr, hrow]

/-- An accepted upsert followed by a read of the same key returns the written
data (shared helper). -/
theorem upsert_then_get (st : ServiceState) (ty : String) (tid : Uuid)
    (obj : String) (data : Json) (auth : AuthContext) (now : Time) (g : GtsType)
    (hreg : typesFind st.types ty = some g)
    (hs : schema_gate g data = .ok ())
    (hlock : auth.is_root_admin = true ∨ ¬lockGet st.locks (ty, tid, obj) = some true)
    (hovr : auth.is_root_admin = true ∨ g.traits.options.is_value_overwritable = true ∨
      (findByType st.settings ty none).any
        (fun s => !(s.tenant_id == tid) && s.domain_object_id == obj) = false) :
    ∃ s, (upsert_setting_with_auth st ty tid obj data auth now).res = .ok s
      ∧ get_setting (upsert_setting_with_auth st ty tid obj data auth now).state
          ty tid obj = .ok s
      ∧ s.data = data := by
  have hex : typesExists st.types ty = true := by
    rw [typesExists_eq, hreg]; rfl
  have hf := findByKey_upsertRow st.settings ⟨ty, tid, obj, data, now, now, none⟩ now rfl
  rw [upsertRow_fst rfl] at hf
  refine ⟨⟨ty, tid, obj, data, now, now, none⟩, ?_, ?_, rfl⟩
  · rw [upsert_success st ty tid obj data auth now g hreg hs hlock hovr]
  · rw [upsert_success st ty tid obj data auth now g hreg hs hlock hovr]
    exact get_setting_found hex hf

/-- C6: for a registered type and an input accepted by UpsertSetting (schema
satisfied, no lock conflict, no overwrite conflict), UpsertSetting followed by
GetSetting on the same key succeeds and returns a Setting whose data equals
the upserted data. -/
theorem upsert_get_roundtrip (st : ServiceState) (ty : String) (tid : Uuid)
    (obj : String) (data : Json) (auth : AuthContext) (now : Time) (g : GtsType)
    (hreg : typesFind st.types ty = some g)
    (hs : schema_gate g data = .ok ())
    (hlock : auth.is_root_admin = true ∨ ¬lockGet st.locks (ty, tid, obj) = some true)
    (hovr : auth.is_root_admin = true ∨ g.traits.options.is_value_overwritable = true ∨
      (findByType st.settings ty none).any
        (fun s => !(s.tenant_id == tid) && s.domain_object_id == obj) = false) :
    ∃ s, (upsert_setting_with_auth st ty tid obj data auth now).res = .ok s
      ∧ get_setting (upsert_setting_with_auth st ty tid obj data auth now).state
          ty tid obj = .ok s
      ∧ s.data = data :=
  upsert_then_get st ty tid obj data auth now g hreg hs hlock hovr

/-- The C6 witness scenario: one registered type with a `"required": ["name"]`
schema. -/
def rtType : GtsType :=
  ⟨"gts.a.p.sm.setting.v1.0~test.v1",
   ⟨.tenant, ⟨.self_, .none_⟩, ⟨30, true, true, false, true, false⟩, none⟩,
   some (.objCons "type" (.str "object")
      (.objCons "required" (.arrCons (.str "name") .arrNil) .objNil)),
   0, 0⟩

/-- The C6 witness state. -/
def rtState : ServiceState := ⟨[], [rtType], []⟩

/-- Witness for C6: upserting `{name: "x"}` then reading it back returns the
same data. -/
theorem upsert_get_roundtrip_witness :
    ∃ s, (upsert_setting_with_auth rtState "gts.a.p.sm.setting.v1.0~test.v1" 4
        "generic" (.objCons "name" (.str "x") .objNil) AuthContext.non_admin 9).res
        = .ok s
      ∧ get_setting (upsert_setting_with_auth rtState
          "gts.a.p.sm.setting.v1.0~test.v1" 4 "generic"
          (.objCons "name" (.str "x") .objNil) AuthContext.non_admin 9).state
          "gts.a.p.sm.setting.v1.0~test.v1" 4 "generic" = .ok s
      ∧ s.data = .objCons "name" (.str "x") .objNil :=
  upsert_get_roundtrip rtState "gts.a.p.sm.setting.v1.0~test.v1" 4 "generic"
    (.objCons "name" (.str "x") .objNil) AuthContext.non_admin 9 rtType
    (by decide) (by decide) (Or.inr (by decide)) (Or.inr (Or.inl (by decide)))

/-- C3: after LockSetting with readOnly = true on a key of a registered type,
a non-privileged UpsertSetting on that exact key fails `Conflict`, a
non-privileged DeleteSetting on that exact key fails `Conflict`, and a
privileged (root/admin) UpsertSetting on the same key succeeds and updates the
stored data. -/
theorem lock_enforcement (st : ServiceState) (g : GtsType) (ty obj : String)
    (tid : Uuid) (d d2 : Json) (now now2 : Time)
    (hreg : typesFind st.types ty = some g)
    (hs1 : schema_gate g d = .ok ())
    (hs2 : schema_gate g d2 = .ok ()) :
    (upsert_setting_with_auth (lock_setting st ty tid obj true).state
        ty tid obj d AuthContext.non_admin now).res
      = .error (.conflict ("Setting is locked for compliance: " ++ ty ++ "/" ++
          toString tid ++ "/" ++ obj))
    ∧ (delete_setting (lock_setting st ty tid obj true).state ty tid obj now).res
      = .error (.conflict ("Setting is locked for compliance: " ++ ty ++ "/" ++
          toString tid ++ "/" ++ obj))
    ∧ (∃ s, (upsert_setting_with_auth (lock_setting st ty tid obj true).state
          ty tid obj d2 (AuthContext.root_admin none none) now2).res = .ok s
        ∧ get_setting (upsert_setting_with_auth (lock_setting st ty tid obj true).state
            ty tid obj d2 (AuthContext.root_admin none none) now2).state
            ty tid obj = .ok s
        ∧ s.data = d2) := by
  have hex : typesExists st.types ty = true := by
    rw [typesExists_eq, hreg]; rfl
  have hlockst : (lock_setting st ty tid obj true).state
      = { st with locks := lockInsert st.locks (ty, tid, obj) true } := by
    simp [lock_setting, hex]
  have hlocked : lockGet (lockInsert st.locks (ty, tid, obj) true) (ty, tid, obj)
      = some true := lockGet_lockInsert _ _ _
  refine ⟨?_, ?_, ?_⟩
  · rw [hlockst]
    have hg : get_gts_type
        { st with locks := lockInsert st.locks (ty, tid, obj) true } ty = .ok g := by
      simp [get_gts_type, hreg]
    simp [upsert_setting_with_auth, hg, hs1, AuthContext.non_admin, hlocked]
  · rw [hlockst]
    simp [delete_setting, hex, hlocked]
  · rw [hlockst]
    exact upsert_then_get _ ty tid obj d2 (AuthContext.root_admin none none)
      now2 g hreg hs2 (Or.inl rfl) (Or.inl rfl)

/-- The C3 witness scenario: a registered schemaless type with an existing
setting at the key about to be locked. -/
def lkType : GtsType :=
  ⟨"gts.lk~v",
   ⟨.tenant, ⟨.self_, .none_⟩, ⟨30, true, true, false, true, false⟩, none⟩,
   none, 0, 0⟩

/-- The existing row the C3 witness locks. -/
def lkRow : Setting := ⟨"gts.lk~v", 2, "generic", .str "old", 0, 0, none⟩

/-- The C3 witness state. -/
def lkState : ServiceState := ⟨[lkRow], [lkType], []⟩

/-- Witness for C3 at a concrete locked key. -/
theorem lock_enforcement_witness :
    (upsert_setting_with_auth (lock_setting lkState "gts.lk~v" 2 "generic" true).state
        "gts.lk~v" 2 "generic" (.str "new") AuthContext.non_admin 5).res
      = .error (.conflict ("Setting is locked for compliance: " ++ "gts.lk~v" ++ "/" ++
          toString 2 ++ "/" ++ "generic"))
    ∧ (delete_setting (lock_setting lkState "gts.lk~v" 2 "generic" true).state
        "gts.lk~v" 2 "generic" 5).res
      = .error (.conflict ("Setting is locked for compliance: " ++ "gts.lk~v" ++ "/" ++
          toString 2 ++ "/" ++ "generic"))
    ∧ (∃ s, (upsert_setting_with_auth (lock_setting lkState "gts.lk~v" 2 "generic" true).state
          "gts.lk~v" 2 "generic" (.str "new") (AuthContext.root_admin none none) 6).res
          = .ok s
        ∧ get_setting (upsert_setting_with_auth
            (lock_setting lkState "gts.lk~v" 2 "generic" true).state
            "gts.lk~v" 2 "generic" (.str "new") (AuthContext.root_admin none none) 6).state
            "gts.lk~v" 2 "generic" = .ok s
        ∧ s.data = .str "new") :=
  lock_enforcement lkState lkType "gts.lk~v" "generic" 2 (.str "new") (.str "new")
    5 6 (by decide) (by decide) (by decide)

/-- C7 (amended): when UpsertSetting updates an already-existing Setting at a
key, the persisted row's creation timestamp is NOT preserved — the service
builds a fresh row whose `created_at` and `updated_at` are both the time of
the update, and that row is what the store persists; the key fields (type,
tenant, object id) are unchanged. -/
theorem upsert_update_timestamps (st : ServiceState) (ty : String) (tid : Uuid)
    (obj : String) (data : Json) (auth : AuthContext) (now : Time) (g : GtsType)
    (hprev : (st.settings.find? (settingKeyMatches ty tid obj)).isSome = true)
    (hreg : typesFind st.types ty = some g)
    (hs : schema_gate g data = .ok ())
    (hlock : auth.is_root_admin = true ∨ ¬lockGet st.locks (ty, tid, obj) = some true)
    (hovr : auth.is_root_admin = true ∨ g.traits.options.is_value_overwritable = true ∨
      (findByType st.settings ty none).any
        (fun s => !(s.tenant_id == tid) && s.domain_object_id == obj) = false) :
    ∃ s, (upsert_setting_with_auth st ty tid obj data auth now).res = .ok s
      ∧ findByKey (upsert_setting_with_auth st ty tid obj data auth now).state.settings
          ty tid obj = some s
      ∧ s.created_at = now ∧ s.updated_at = now
      ∧ s.type = ty ∧ s.tenant_id = tid ∧ s.domain_object_id = obj := by
  have hf := findByKey_upsertRow st.settings ⟨ty, tid, obj, data, now, now, none⟩ now rfl
  rw [upsertRow_fst rfl] at hf
  refine ⟨⟨ty, tid, obj, data, now, now, none⟩, ?_, ?_, rfl, rfl, rfl, rfl, rfl⟩
  · rw [upsert_success st ty tid obj data auth now g hreg hs hlock hovr]
  · rw [upsert_success st ty tid obj data auth now g hreg hs hlock hovr]
    exact hf

/-- The C7 scenario: a schemaless registered type with an existing row whose
creation timestamp is 0. -/
def tsType : GtsType :=
  ⟨"gts.ts~v",
   ⟨.tenant, ⟨.self_, .none_⟩, ⟨30, true, true, false, true, false⟩, none⟩,
   none, 0, 0⟩

/-- The pre-existing row of the C7 scenario (created at time 0). -/
def tsRow : Setting := ⟨"gts.ts~v", 1, "generic", .null, 0, 0, none⟩

/-- The C7 scenario state. -/
def tsState : ServiceState := ⟨[tsRow], [tsType], []⟩

/-- Counterexample to C7 as stated: updating the existing row at time 100
persists a row whose creation timestamp is 100, not the original 0 — the
creation timestamp is not preserved. -/
theorem upsert_overwrites_created_at :
    tsRow.created_at = 0
    ∧ (upsert_setting_with_auth tsState "gts.ts~v" 1 "generic" (.str "x")
        AuthContext.non_admin 100).res
      = .ok ⟨"gts.ts~v", 1, "generic", .str "x", 100, 100, none⟩
    ∧ findByKey (upsert_setting_with_auth tsState "gts.ts~v" 1 "generic" (.str "x")
        AuthContext.non_admin 100).state.settings "gts.ts~v" 1 "generic"
      = some ⟨"gts.ts~v", 1, "generic", .str "x", 100, 100, none⟩
    ∧ (100 : Time) ≠ 0 := by decide

/-- Witness for the amended C7 at the same concrete update. -/
theorem upsert_update_timestamps_witness :
    ∃ s, (upsert_setting_with_auth tsState "gts.ts~v" 1 "generic" (.str "x")
        AuthContext.non_admin 100).res = .ok s
      ∧ findByKey (upsert_setting_with_auth tsState "gts.ts~v" 1 "generic" (.str "x")
          AuthContext.non_admin 100).state.settings "gts.ts~v" 1 "generic" = some s
      ∧ s.created_at = 100 ∧ s.updated_at = 100
      ∧ s.type = "gts.ts~v" ∧ s.tenant_id = 1 ∧ s.domain_object_id = "generic" :=
  upsert_update_timestamps tsState "gts.ts~v" 1 "generic" (.str "x")
    AuthContext.non_admin 100 tsType (by decide) (by decide) (by decide)
    (Or.inr (by decide)) (Or.inr (Or.inl (by decide)))

/-- The C1 scenario: a registered type with a 1-day retention period and a
row soft-deleted at time 0, swept 10 days later. -/
def retType : GtsType :=
  ⟨"gts.a.p.sm.setting.v1.0~retention.test.v1",
   ⟨.tenant, ⟨.self_, .none_⟩, ⟨1, true, true, false, true, false⟩, none⟩,
   none, 0, 0⟩

/-- The expired soft-deleted row of the C1 scenario. -/
def expiredRow : Setting :=
  ⟨"gts.a.p.sm.setting.v1.0~retention.test.v1", 3, "generic", .null, 0, 0, some 0⟩

/-- The C1 scenario state. -/
def retState : ServiceState := ⟨[expiredRow], [retType], []⟩

/-- C1 evaluated at the failing input: the row is soft-deleted and far past
its retention deadline, yet `enforce_retention` (service loop composed with
`SeaOrmSettingsRepository::list_all`, which filters out soft-deleted rows)
returns 0 and leaves the row in place; composed with the tests' mock
`list_all` (no filter) the same sweep hard-deletes the row and returns 1. -/
theorem enforce_retention_misses_soft_deleted :
    expiredRow.deleted_at = some 0
    ∧ (864000 : Time) > 0 + daysToTime 1
    ∧ enforce_retention retState 864000 = (.ok 0, retState)
    ∧ enforce_retention_mock retState 864000 = (.ok 1, ⟨[], [retType], []⟩) := by
  decide

/-- The C4 scenario: a registered type and an empty settings table. -/
def lmType : GtsType :=
  ⟨"gts.lm~v",
   ⟨.tenant, ⟨.self_, .none_⟩, ⟨30, true, true, false, true, false⟩, none⟩,
   none, 0, 0⟩

/-- The C4 scenario state: no settings exist. -/
def lmState : ServiceState := ⟨[], [lmType], []⟩

/-- C4 evaluated at the failing input: no Setting exists at the key, yet
`lock_setting` returns `Ok`, writes the lock entry and publishes the Locked
event, because `find_by_key(..).map_err(|_| NotFound)?` only maps a store
failure — not `Ok(None)` — to `NotFound`. -/
theorem lock_setting_missing_setting_succeeds :
    findByKey lmState.settings "gts.lm~v" 7 "generic" = none
    ∧ (lock_setting lmState "gts.lm~v" 7 "generic" true).res = .ok ()
    ∧ (lock_setting lmState "gts.lm~v" 7 "generic" true).state.locks
        = [(("gts.lm~v", 7, "generic"), true)]
    ∧ (lock_setting lmState "gts.lm~v" 7 "generic" true).pubs
        = [⟨.audit, .settingLocked "gts.lm~v" 7 "generic" true none, .self_, 7⟩,
           ⟨.notification, .settingLocked "gts.lm~v" 7 "generic" true none, .none_, 7⟩] := by
  decide

/-- The C5 scenario: a registered schemaless type and an empty settings
table, so the upserted key is brand-new. -/
def nwType : GtsType :=
  ⟨"gts.nw~v",
   ⟨.tenant, ⟨.self_, .none_⟩, ⟨30, true, true, false, true, false⟩, none⟩,
   none, 0, 0⟩

/-- The C5 scenario state. -/
def nwState : ServiceState := ⟨[], [nwType], []⟩

/-- C5 evaluated at the failing input: no Setting exists at the key before the
write, the upsert succeeds, yet both published Upserted events carry
`is_new = false`, because the source computes `is_new` as
`find_by_key(..).is_err()`, which is `false` whenever the store call
succeeds (`Ok(None)` included). -/
theorem upserted_event_is_new_always_false :
    findByKey nwState.settings "gts.nw~v" 7 "generic" = none
    ∧ (upsert_setting_with_auth nwState "gts.nw~v" 7 "generic" (.str "v")
        AuthContext.non_admin 5).res
      = .ok ⟨"gts.nw~v", 7, "generic", .str "v", 5, 5, none⟩
    ∧ (upsert_setting_with_auth nwState "gts.nw~v" 7 "generic" (.str "v")
        AuthContext.non_admin 5).pubs
      = [⟨.audit, .settingUpserted "gts.nw~v" 7 "generic" (.str "v") false none,
          .self_, 7⟩,
         ⟨.notification, .settingUpserted "gts.nw~v" 7 "generic" (.str "v") false none,
          .none_, 7⟩] := by
  decide

theorem sweep_preserves_unregistered (types : TypeTable) (now : Time) (r : Setting)
    (hunreg : typesFind types r.type = none) :
    ∀ rows tbl, r ∈ tbl → r ∈ (retention_sweep types now rows tbl).2 := by
  intro rows
  induction rows with
  | nil => intro tbl h; simpa [retention_sweep] using h
  | cons s rest ih =>
    intro tbl h
    cases hd : s.deleted_at with
    | none => simpa [retention_sweep, hd] using ih tbl h
    | some t =>
      cases hg : typesFind types s.type with
      | none => simpa [retention_sweep, hd, hg] using ih tbl h
      | some g =>
        by_cases hcmp : now > t + daysToTime (g.traits.options.retention_period : Int)
        · simp only [retention_sweep, hd, hg, if_pos hcmp]
          apply ih
          unfold hardDelete
          rw [List.mem_filter]
          refine ⟨h, ?_⟩
          have hne : r.type ≠ s.type := by
            intro he
            rw [he] at hunreg
            rw [hunreg] at hg
            cases hg
          simp [settingKeyMatches, hne]
        · simpa [retention_sweep, hd, hg, if_neg hcmp] using ih tbl h

theorem sweep_filter_registered (types : TypeTable) (now : Time) :
    ∀ rows tbl, retention_sweep types now rows tbl
      = retention_sweep types now
          (rows.filter (fun s => (typesFind types s.type).isSome)) tbl := by
  intro rows
  induction rows with
  | nil => intro tbl; rfl
  | cons s rest ih =>
    intro tbl
    cases hg : typesFind types s.type with
    | none =>
      cases hd : s.deleted_at with
      | none => simp [retention_sweep, hd, hg, List.filter_cons, ih tbl]
      | some t => simp [retention_sweep, hd, hg, List.filter_cons, ih tbl]
    | some g =>
      cases hd : s.deleted_at with
      | none => simp [retention_sweep, hd, hg, List.filter_cons, ih tbl]
      | some t =>
        by_cases hcmp : now > t + daysToTime (g.traits.options.retention_period : Int)
        · simp [retention_sweep, hd, hg, List.filter_cons, if_pos hcmp, ih]
        · simp [retention_sweep, hd, hg, List.filter_cons, if_neg hcmp, ih tbl]

/-- C10: a soft-deleted row whose type is no longer registered is silently
skipped by the retention sweep: it is never hard-deleted (it survives
`enforce_retention` and any sweep over any scan list) and never counted
(dropping all unregistered-type rows from the scan list changes neither the
count nor the final table). -/
theorem retention_skips_unregistered (st : ServiceState) (now : Time)
    (rows : List Setting) (r : Setting)
    (hdel : r.deleted_at.isSome = true)
    (hunreg : typesFind st.types r.type = none)
    (hmem : r ∈ st.settings) :
    r ∈ (enforce_retention st now).2.settings
    ∧ r ∈ (retention_sweep st.types now rows st.settings).2
    ∧ retention_sweep st.types now rows st.settings
        = retention_sweep st.types now
            (rows.filter (fun s => (typesFind st.types s.type).isSome)) st.settings :=
  ⟨sweep_preserves_unregistered st.types now r hunreg _ _ hmem,
   sweep_preserves_unregistered st.types now r hunreg rows _ hmem,
   sweep_filter_registered st.types now rows _⟩

/-- The C10 witness scenario: an orphaned soft-deleted row whose type is not
in the registry. -/
def orphanRow : Setting := ⟨"gts.gone~v", 9, "generic", .null, 0, 0, some 0⟩

/-- The C10 witness state: empty type registry. -/
def orphanState : ServiceState := ⟨[orphanRow], [], []⟩

/-- Witness for C10: the orphaned row survives the sweep and contributes
nothing. -/
theorem retention_skips_unregistered_witness :
    orphanRow ∈ (enforce_retention orphanState 864000).2.settings
    ∧ orphanRow ∈ (retention_sweep orphanState.types 864000 [orphanRow]
        orphanState.settings).2
    ∧ retention_sweep orphanState.types 864000 [orphanRow] orphanState.settings
        = retention_sweep orphanState.types 864000
            ([orphanRow].filter (fun s => (typesFind orphanState.types s.type).isSome))
            orphanState.settings :=
  retention_skips_unregistered orphanState 864000 [orphanRow] orphanRow
    (by decide) (by decide) (by decide)

/-- C9: the object-id validation accepts exactly the four shapes — the literal
`"generic"`, a valid UUID string, a `gts.`-prefixed string containing `'~'`,
and the AppCode shape (starts alphanumeric, only alphanumerics/`_`/`.`/`-`,
at least one alphanumeric) — so `"generic"`, a valid UUID, a type-identifier
shaped string and `"app.code-1"` are accepted, while `"_bad"`, `""` and
`"a b"` are rejected with a `Validation` error. -/
theorem object_id_validation_exact_shapes :
    (∀ s : String, validate_domain_object_id s = .ok () ↔ object_id_accepted s = true)
    ∧ validate_domain_object_id "generic" = .ok ()
    ∧ validate_domain_object_id "550e8400-e29b-41d4-a716-446655440000" = .ok ()
    ∧ validate_domain_object_id "gts.a.p.sm.storage.v1.0~vendor.app.v1.0" = .ok ()
    ∧ validate_domain_object_id "app.code-1" = .ok ()
    ∧ isValidationError (validate_domain_object_id "_bad") = true
    ∧ isValidationError (validate_domain_object_id "") = true
    ∧ isValidationError (validate_domain_object_id "a b") = true := by
  refine ⟨?_, by decide, by decide, by decide, by decide, by decide, by decide, by decide⟩
  intro s
  rcases hs : s.data with _ | ⟨first, rest⟩
  · have hemp : s = "" := String.ext hs
    subst hemp
    decide
  · simp only [validate_domain_object_id, object_id_accepted, is_appcode_shape, hs]
    by_cases hA : (s == "generic") = true <;>
      by_cases hB : uuid_parse_ok s = true <;>
        by_cases hC : ("gts.".data.isPrefixOf (first :: rest) &&
          (first :: rest).contains '~') = true <;>
          by_cases hD : first.isAlphanum = true <;>
            by_cases hE : ((first :: rest).all isAppcodeChar) = true <;>
              by_cases hF : ((first :: rest).any (fun c => c.isAlphanum)) = true <;>
                simp_all <;> tauto

/-- C8: with an unregistered type identifier, every settings operation —
GetSetting, get-settings-by-type, UpsertSetting, DeleteSetting, LockSetting —
fails with `TypeNotRegistered`, leaves the state untouched and publishes
nothing. -/
theorem unregistered_type_rejected (st : ServiceState) (ty : String) (tid : Uuid)
    (obj : String) (d : Json) (auth : AuthContext) (now : Time)
    (h : typesFind st.types ty = none) :
    get_setting st ty tid obj = .error (.typeNotRegistered ty)
    ∧ get_settings_by_type st ty (some tid) = .error (.typeNotRegistered ty)
    ∧ upsert_setting_with_auth st ty tid obj d auth now
        = ⟨.error (.typeNotRegistered ty), st, []⟩
    ∧ delete_setting st ty tid obj now = ⟨.error (.typeNotRegistered ty), st, []⟩
    ∧ lock_setting st ty tid obj true = ⟨.error (.typeNotRegistered ty), st, []⟩ := by
  have hex : typesExists st.types ty = false := by
    rw [typesExists_eq, h]
    rfl
  refine ⟨?_, ?_, ?_, ?_, ?_⟩
  · simp [get_setting, hex]
  · simp [get_settings_by_type, hex]
  · simp [upsert_setting_with_auth, get_gts_type, h]
  · simp [delete_setting, hex]
  · simp [lock_setting, hex]

theorem resolve_walk_barrier (st : ServiceState) (ty obj : String) (g : GtsType)
    (hreg : typesFind st.types ty = some g)
    (hbar : g.traits.options.is_barrier_inheritance = true) :
    ∀ ancestors, resolve_walk st ty obj ancestors = none := by
  intro ancestors
  induction ancestors with
  | nil => rfl
  | cons a rest ih =>
    have hg : get_gts_type st ty = .ok g := by simp [get_gts_type, hreg]
    cases hga : get_setting st ty a obj with
    | error e => simp [resolve_walk, hga, ih]
    | ok s => simp [resolve_walk, hga, hg, hbar, ih]

theorem resolve_walk_none (st : ServiceState) (ty obj : String) :
    ∀ ancestors, (∀ a ∈ ancestors, findByKey st.settings ty a obj = none) →
      resolve_walk st ty obj ancestors = none := by
  intro ancestors
  induction ancestors with
  | nil => intro _; rfl
  | cons a rest ih =>
    intro h
    obtain ⟨e, he⟩ := get_setting_isErr_of_none (h a (by simp))
    simp only [resolve_walk, he]
    exact ih (fun p hp => h p (by simp [hp]))

theorem resolve_walk_first_hit (st : ServiceState) (ty obj : String) (g : GtsType)
    (s : Setting) (a : Uuid) (hreg : typesFind st.types ty = some g)
    (hinh : g.traits.options.is_value_inheritable = true)
    (hbar : g.traits.options.is_barrier_inheritance = false)
    (hfa : findByKey st.settings ty a obj = some s) :
    ∀ pre, (∀ p ∈ pre, findByKey st.settings ty p obj = none) →
      ∀ post, resolve_walk st ty obj (pre ++ a :: post) = some s := by
  intro pre
  induction pre with
  | nil =>
    intro _ post
    have hex : typesExists st.types ty = true := by
      rw [typesExists_eq, hreg]; rfl
    simp [resolve_walk, get_setting_found hex hfa, get_gts_type, hreg, hinh, hbar]
  | cons p pre' ih =>
    intro h post
    obtain ⟨e, he⟩ := get_setting_isErr_of_none (h p (by simp))
    simp only [List.cons_append, resolve_walk, he]
    exact ih (fun q hq => h q (by simp [hq])) post

/-- C2: with a registered inheritable type, `resolve_inherited_setting` returns
the tenant's own direct non-deleted setting when one exists; otherwise it walks
the ancestor path child-to-root and returns the first ancestor's setting with
that ancestor as owner (nearest-ancestor-wins); when the type's barrier flag is
set it returns not-found even when an ancestor holds a value; and when no
ancestor holds a value it returns not-found. -/
theorem resolve_inherited_nearest_ancestor (st : ServiceState) (g : GtsType)
    (ty obj : String) (tid : Uuid) (ancestors : List Uuid)
    (hreg : typesFind st.types ty = some g)
    (hinh : g.traits.options.is_value_inheritable = true) :
    (∀ s, findByKey st.settings ty tid obj = some s →
      resolve_inherited_setting st ancestors ty tid obj = some s)
    ∧ (∀ pre a post s, ancestors = pre ++ a :: post →
        findByKey st.settings ty tid obj = none →
        (∀ p ∈ pre, findByKey st.settings ty p obj = none) →
        findByKey st.settings ty a obj = some s →
        g.traits.options.is_barrier_inheritance = false →
        resolve_inherited_setting st ancestors ty tid obj = some s ∧ s.tenant_id = a)
    ∧ (g.traits.options.is_barrier_inheritance = true →
        findByKey st.settings ty tid obj = none →
        resolve_inherited_setting st ancestors ty tid obj = none)
    ∧ (findByKey st.settings ty tid obj = none →
        (∀ a ∈ ancestors, findByKey st.settings ty a obj = none) →
        resolve_inherited_setting st ancestors ty tid obj = none) := by
  have hex : typesExists st.types ty = true := by
    rw [typesExists_eq, hreg]; rfl
  refine ⟨?_, ?_, ?_, ?_⟩
  · intro s hf
    simp [resolve_inherited_setting, get_setting_found hex hf]
  · intro pre a post s hanc hdirect hpre hfa hbar
    obtain ⟨e, he⟩ := get_setting_isErr_of_none hdirect
    refine ⟨?_, (findByKey_fields hfa).2.1⟩
    simp only [resolve_inherited_setting, he]
    rw [hanc]
    exact resolve_walk_first_hit st ty obj g s a hreg hinh hbar hfa pre hpre post
  · intro hbar hdirect
    obtain ⟨e, he⟩ := get_setting_isErr_of_none hdirect
    simp only [resolve_inherited_setting, he]
    exact resolve_walk_barrier st ty obj g hreg hbar ancestors
  · intro hdirect hnone
    obtain ⟨e, he⟩ := get_setting_isErr_of_none hdirect
    simp only [resolve_inherited_setting, he]
    exact resolve_walk_none st ty obj ancestors hnone

/-- The Root → Child → Grandchild witness scenario for C2: an inheritable,
non-barrier type whose value is set at the root tenant (0). -/
def inhType : GtsType :=
  ⟨"gts.a.p.sm.setting.v1.0~test.inheritance.v1",
   ⟨.tenant, ⟨.self_, .none_⟩, ⟨30, true, true, false, true, false⟩, none⟩,
   none, 0, 0⟩

/-- The root tenant's value `{v: 100}` in the C2 witness scenario. -/
def rootRow : Setting :=
  ⟨"gts.a.p.sm.setting.v1.0~test.inheritance.v1", 0, "generic",
   .objCons "v" (.num 100) .objNil, 0, 0, none⟩

/-- The C2 witness state: only the root tenant holds a value. -/
def inhState : ServiceState := ⟨[rootRow], [inhType], []⟩

/-- Witness for C2: the grandchild (tenant 2, ancestor path [1, 0]) resolves
the root's value with owner = root. -/
theorem resolve_inherited_nearest_ancestor_witness :
    resolve_inherited_setting inhState [1, 0]
        "gts.a.p.sm.setting.v1.0~test.inheritance.v1" 2 "generic" = some rootRow
    ∧ rootRow.tenant_id = 0 :=
  (resolve_inherited_nearest_ancestor inhState inhType
      "gts.a.p.sm.setting.v1.0~test.inheritance.v1" "generic" 2 [1, 0]
      (by decide) (by decide)).2.1 [1] 0 [] rootRow rfl (by decide)
    (by decide) (by decide) (by decide)

/-- Witness for C8 at a concrete unregistered type. -/
theorem unregistered_type_rejected_witness :
    get_setting ⟨[], [], []⟩ "gts.x~y" 1 "generic"
        = .error (.typeNotRegistered "gts.x~y")
    ∧ get_settings_by_type ⟨[], [], []⟩ "gts.x~y" (some 1)
        = .error (.typeNotRegistered "gts.x~y")
    ∧ upsert_setting_with_auth ⟨[], [], []⟩ "gts.x~y" 1 "generic" .null
        AuthContext.non_admin 0
        = ⟨.error (.typeNotRegistered "gts.x~y"), ⟨[], [], []⟩, []⟩
    ∧ delete_setting ⟨[], [], []⟩ "gts.x~y" 1 "generic" 0
        = ⟨.error (.typeNotRegistered "gts.x~y"), ⟨[], [], []⟩, []⟩
    ∧ lock_setting ⟨[], [], []⟩ "gts.x~y" 1 "generic" true
        = ⟨.error (.typeNotRegistered "gts.x~y"), ⟨[], [], []⟩, []⟩ :=
  unregistered_type_rejected ⟨[], [], []⟩ "gts.x~y" 1 "generic" .null
    AuthContext.non_admin 0 rfl

end SettingsService
